import Mathlib

/-!
Shallow embedding of the sae-sam repository modules that the claims concern:
`src/modules/image_rectification.py`, `src/modules/image_segmentation.py` and
`src/modules/metrics_estimation.py`.

Conventions of the embedding:
* Python floats are modelled as exact rationals (`ℚ`); `int(x)` is `pyInt`
  (truncation toward zero); real-valued results that the code obtains through
  `numpy.linalg.norm` (a square root) live in `ℝ` via `Real.sqrt`.
* Images and masks are modelled by their pixel dimensions plus total functions
  from pixel coordinates to values; numpy slicing `a:b` on an axis of length
  `len` has length `sliceLen a b len` (valid for non-negative start indices,
  which is the regime of every claim).
* External numeric black boxes that the code calls - the depth-estimation
  neural network, `numpy.linalg.eigh` and the open3d KD-tree k-nearest-neighbour
  search - are modelled as explicit oracle parameters (`depth`, `eigh`, `knn`).
  No claim depends on the values these oracles return.
-/

/-- Axis-aligned bounding box `[x1, y1, x2, y2]`, the four-int python list used
throughout the repository (`box[0], box[1], box[2], box[3]`). -/
structure Box where
  x1 : ℤ
  y1 : ℤ
  x2 : ℤ
  y2 : ℤ
deriving DecidableEq

/-- Python `int()` applied to an exact rational: truncation toward zero. -/
def pyInt (q : ℚ) : ℤ := if 0 ≤ q then ⌊q⌋ else ⌈q⌉

/-- Box area `(box[2] - box[0]) * (box[3] - box[1])`, as computed in
`filter_colliding_boxes` and `set_detected_boxes`. -/
def boxArea (b : Box) : ℤ := (b.x2 - b.x1) * (b.y2 - b.y1)

/-- Overlap test from `filter_colliding_boxes`
(`image_rectification.py`, line 193):
`not (box1[2] < box2[0] or box1[0] > box2[2] or box1[3] < box2[1] or box1[1] > box2[3])`. -/
def collide (b1 b2 : Box) : Bool :=
  !(decide (b1.x2 < b2.x1) || decide (b1.x1 > b2.x2) ||
    decide (b1.y2 < b2.y1) || decide (b1.y1 > b2.y2))

/-- Python `enumerate` starting at index `n`. -/
def enumIdx : ℕ → List Box → List (ℕ × Box)
  | _, [] => []
  | n, b :: bs => (n, b) :: enumIdx (n + 1) bs

/-- One iteration of the outer loop of `filter_colliding_boxes`
(`image_rectification.py`, lines 186-197): skip the box if its index was
already added to a bin, otherwise open a new bin with it and append every
later box that collides with it (collision is always tested against the
bin-opening box `box1`). -/
def binStep (allBoxes : List (ℕ × Box)) (st : List (List Box) × List ℕ)
    (ib : ℕ × Box) : List (List Box) × List ℕ :=
  if ib.1 ∈ st.2 then st
  else
    let hits := allBoxes.filter (fun jb => decide (ib.1 < jb.1) && collide ib.2 jb.2)
    (st.1 ++ [ib.2 :: hits.map (fun jb => jb.2)], st.2 ++ hits.map (fun jb => jb.1))

/-- Python `max(box_bin, key=area)`: first box of maximal area (a later box
replaces the current one only when its area is strictly greater). -/
def maxAreaBox (b : Box) (rest : List Box) : Box :=
  rest.foldl (fun acc c => if boxArea acc < boxArea c then c else acc) b

/-- `ImageRectification.filter_colliding_boxes`
(`image_rectification.py`, lines 173-210): split the boxes into collision
bins with a single left-to-right scan, then keep only the biggest-area box
of each bin. -/
def filter_colliding_boxes (boxes : List Box) : List Box :=
  let enum := enumIdx 0 boxes
  let bins := (enum.foldl (binStep enum) ([], [])).1
  bins.map (fun bin =>
    match bin with
    | [] => ⟨0, 0, 0, 0⟩
    | b :: rest => maxAreaBox b rest)

/-- Bool test that no two boxes of the list overlap (in the `collide` sense). -/
def pairwiseNonCollidingB : List Box → Bool
  | [] => true
  | b :: rest => rest.all (fun c => !(collide b c)) && pairwiseNonCollidingB rest

/-- Box enlargement performed in-place at the start of
`estimate_blocking_area_volume` (`metrics_estimation.py`, lines 55-60).
The four assignments happen sequentially on the same list, so the third one
reads the already-updated `box[0]` and the fourth the already-updated
`box[1]`. -/
def enlargeBox (box : Box) (w h : ℚ) (imgW imgH : ℤ) : Box :=
  let b0 := max 0 (pyInt ((box.x1 : ℚ) - w * ((box.x2 : ℚ) - (box.x1 : ℚ))))
  let b1 := max 0 (pyInt ((box.y1 : ℚ) - h * ((box.y2 : ℚ) - (box.y1 : ℚ))))
  let b2 := min imgW (pyInt ((box.x2 : ℚ) + w * ((box.x2 : ℚ) - (b0 : ℚ))))
  let b3 := min imgH (pyInt ((box.y2 : ℚ) + h * ((box.y2 : ℚ) - (b1 : ℚ))))
  ⟨b0, b1, b2, b3⟩

/-- Modelled from the spec: the symmetric enlargement the spec describes,
where each edge moves outward by the given fraction of the box's original
width/height, clamped to the image bounds. Used only to compare against
`enlargeBox`, which is what the code computes. -/
def enlargeBoxSpec (box : Box) (w h : ℚ) (imgW imgH : ℤ) : Box :=
  let bw : ℚ := (box.x2 : ℚ) - (box.x1 : ℚ)
  let bh : ℚ := (box.y2 : ℚ) - (box.y1 : ℚ)
  ⟨max 0 (pyInt ((box.x1 : ℚ) - w * bw)),
   max 0 (pyInt ((box.y1 : ℚ) - h * bh)),
   min imgW (pyInt ((box.x2 : ℚ) + w * bw)),
   min imgH (pyInt ((box.y2 : ℚ) + h * bh))⟩

/-- Stable insertion (ascending by key): the new element goes after all
existing elements whose key is less than or equal to its own. -/
def insertSortedBy {α : Type} (key : α → ℤ) (a : α) : List α → List α
  | [] => [a]
  | b :: bs => if key b ≤ key a then b :: insertSortedBy key a bs else a :: b :: bs

/-- Stable ascending sort by an integer key, matching python `sorted` with a
key function. -/
def stableSortBy {α : Type} (key : α → ℤ) (l : List α) : List α :=
  l.foldl (fun acc a => insertSortedBy key a acc) []

/-- Box type tag used by `sort_enhance_detected_boxes`. -/
inductive BoxType
  | grid
  | collumn
deriving DecidableEq

/-- Grid boxes created between consecutive collumn boxes
(`image_rectification.py`, lines 88-94):
`[left_box[2], left_box[1], right_box[0], right_box[3]]`. -/
def midGridBoxes : List Box → List Box
  | a :: b :: rest => (⟨a.x2, a.y1, b.x1, b.y2⟩ : Box) :: midGridBoxes (b :: rest)
  | _ => []

/-- Python `l[-1]` for the nonempty list `a :: l`. -/
def lastBox (a : Box) (l : List Box) : Box := l.foldl (fun _ c => c) a

/-- `ImageRectification.sort_enhance_detected_boxes`
(`image_rectification.py`, lines 71-104): sort the collumn boxes by `x1`,
create grid boxes before, between and after them from the barrier box, and
return all boxes sorted by `x1` with their type tags. -/
def sort_enhance_detected_boxes (bb : Box) (cols : List Box) : List (Box × BoxType) :=
  match stableSortBy (fun b => b.x1) cols with
  | [] => []
  | c0 :: rest =>
    let colsSorted := c0 :: rest
    let lastc := lastBox c0 rest
    let firstGrid := if bb.x1 < c0.x1 then [(⟨bb.x1, c0.y1, c0.x1, bb.y2⟩ : Box)] else []
    let midGrids := midGridBoxes colsSorted
    let lastGrid := if lastc.x2 < bb.x2 then [(⟨lastc.x2, lastc.y1, bb.x2, bb.y2⟩ : Box)] else []
    let grids := firstGrid ++ midGrids ++ lastGrid
    let tagged := grids.map (fun g => (g, BoxType.grid)) ++
      colsSorted.map (fun c => (c, BoxType.collumn))
    stableSortBy (fun bt => bt.1.x1) tagged

/-- Length of the numpy slice `a:b` over an axis of length `len`, for
non-negative start index (no negative wrap-around is used by the claims). -/
def sliceLen (a b len : ℤ) : ℤ := max 0 (min b len - max a 0)

/-- PIL resampling filter passed to `Image.resize`. -/
inductive ResampleFilter
  | lanczos
  | nearest
deriving DecidableEq

/-- Record of one `Image.resize` call: source size, destination size and the
resampling filter used. -/
structure ResizeOp where
  srcH : ℤ
  srcW : ℤ
  dstH : ℤ
  dstW : ℤ
  rfilter : ResampleFilter
deriving DecidableEq

/-- `ImageRectification.rectify_image_section`
(`image_rectification.py`, lines 106-122): the section is resized to the
target width of its box type, keeping its height, with
`Image.Resampling.LANCZOS` - the single filter used for every section,
whether the input is the RGB image or the class mask. -/
def rectify_image_section (secH secW : ℤ) (box_type : BoxType)
    (grid_px collumn_px : ℤ) : ResizeOp :=
  ⟨secH, secW, secH, if box_type = BoxType.grid then grid_px else collumn_px,
   ResampleFilter.lanczos⟩

/-- State of an `ImageRectification` instance
(`image_rectification.py`, lines 7-25 and 150-171). -/
structure ImageRectification where
  grid_width_m : ℚ
  grid_height_m : ℚ
  collumn_width_m : ℚ
  meters_pixel : ℚ
  grid_width_px : ℤ
  collumn_width_px : ℤ
  collumn_boxes : List Box
  barrier_box : Option Box
deriving DecidableEq

/-- `ImageRectification.__init__`: the target pixel widths are
`int(width_m / meters_pixel_ratio)` - python `int`, i.e. truncation. -/
def ImageRectification.init (grid_width grid_height collumn_width : ℚ)
    (undistort_m_px : ℚ) : ImageRectification :=
  ⟨grid_width, grid_height, collumn_width, undistort_m_px,
   pyInt (grid_width / undistort_m_px), pyInt (collumn_width / undistort_m_px),
   [], none⟩

/-- Python `max(barrier_boxes, key=area)` computed by the explicit loop in
`set_detected_boxes` (strictly-greater replacement, first maximum kept). -/
def pickBarrierBox (b : Box) (rest : List Box) : Box :=
  rest.foldl (fun acc c => if boxArea acc < boxArea c then c else acc) b

/-- `ImageRectification.set_detected_boxes`
(`image_rectification.py`, lines 150-171): the collumn boxes are filtered
through `filter_colliding_boxes` and the biggest barrier box is kept. An
empty barrier list would raise an `IndexError` in python; the claims always
supply a nonempty one, and the model leaves the state unchanged there. -/
def ImageRectification.set_detected_boxes (r : ImageRectification)
    (collumn_boxes : List Box) (barrier_boxes : List Box) : ImageRectification :=
  match barrier_boxes with
  | [] => r
  | b0 :: rest =>
    { r with collumn_boxes := filter_colliding_boxes collumn_boxes,
             barrier_box := some (pickBarrierBox b0 rest) }

/-- Result of `snip_rectify_image`: dimensions of the composite image and the
sequence of resize operations that produced its sections. -/
structure RectifiedImage where
  height : ℤ
  width : ℤ
  ops : List ResizeOp
deriving DecidableEq

/-- `numpy.hstack` on image dimensions: widths add; a height mismatch is a
runtime error, modelled as `none`. -/
def hstackDims (acc : Option (ℤ × ℤ)) (hw : ℤ × ℤ) : Option (ℤ × ℤ) :=
  match acc with
  | none => none
  | some hw0 => if hw.1 = hw0.1 then some (hw0.1, hw0.2 + hw.2) else none

/-- `int(np.min([box[1] for box in boxes]))` over the nonempty tagged box
list. -/
def minYOfTagged (t0 : Box × BoxType) (ts : List (Box × BoxType)) : ℤ :=
  ts.foldl (fun m bt => min m bt.1.y1) t0.1.y1

/-- `ImageRectification.snip_rectify_image`
(`image_rectification.py`, lines 27-69): sort and enhance the boxes, set
every box's `y1` to the highest point (minimum `y1`) and `y3` to the image
height, rectify each section to its target width, and `hstack` the results
(dropping the initial 1-pixel-wide seed column). Raising paths (no collumn
boxes / no barrier box) are modelled as `none`. The per-section resize
operations: every box first gets its `y1` set to the highest point (minimum
`y1` over the sorted boxes) and its `y3` to the image height (lines 47-51),
then the section `image[box[1]:box[3], box[0]:box[2]]` is resized by
`rectify_image_section`. -/
def snip_section_ops (t0 : Box × BoxType) (ts : List (Box × BoxType))
    (imgH imgW grid_px collumn_px : ℤ) : List ResizeOp :=
  (((t0 :: ts).map (fun bt =>
      ({ bt.1 with y1 := minYOfTagged t0 ts, y2 := imgH }, bt.2)))).map (fun bt =>
    rectify_image_section (sliceLen bt.1.y1 bt.1.y2 imgH)
      (sliceLen bt.1.x1 bt.1.x2 imgW) bt.2 grid_px collumn_px)

/-- `ImageRectification.snip_rectify_image` proper: `hstack` of the seed
1-pixel column with every rectified section, then the seed column is dropped
(`[:, 1:]`), returning the composite dimensions and the resize-operation
log. -/
def ImageRectification.snip_rectify_image (r : ImageRectification)
    (imgH imgW : ℤ) : Option RectifiedImage :=
  r.barrier_box.bind (fun bb =>
    match sort_enhance_detected_boxes bb r.collumn_boxes with
    | [] => none
    | t0 :: ts =>
      ((snip_section_ops t0 ts imgH imgW r.grid_width_px r.collumn_width_px).foldl
          (fun acc op => hstackDims acc (op.dstH, op.dstW))
          (some (imgH - minYOfTagged t0 ts, 1))).map (fun hw =>
        ⟨hw.1, hw.2 - 1,
         snip_section_ops t0 ts imgH imgW r.grid_width_px r.collumn_width_px⟩))

/-- Modelled from the spec: target pixel width by `round` of the metric width
over the resolution, as the spec words the formula
(`grid_width_px = round(grid_width_m / x_res)`). Used only to compare with
the code's truncating computation. -/
def specRoundWidthPx (width_m x_res : ℚ) : ℤ := round (width_m / x_res)

/-- Sum of per-section target widths of a tagged box list, for a given choice
of grid and collumn target widths. -/
def sectionWidthSum (tagged : List (Box × BoxType)) (grid_px collumn_px : ℤ) : ℤ :=
  (tagged.map (fun bt => if bt.2 = BoxType.grid then grid_px else collumn_px)).sum

/-- Class names known to the segmentation model
(`image_segmentation.py`; the model detects barragem, coluna, macrofita,
sedimento and tronco, plus the background code). -/
inductive ClassName
  | background
  | barragem
  | coluna
  | macrofita
  | sedimento
  | tronco
deriving DecidableEq

/-- `ImageSegmentation.draw_detection_in_global_mask`
(`image_segmentation.py`, lines 154-169): a pixel already holding the
sedimento or macrofita code is skipped; otherwise pixels covered by the
detection mask receive the class code. Only sedimento and macrofita are
protected - tronco is not. -/
def draw_detection_in_global_mask (codes : ClassName → ℕ) (mask : ℕ → ℕ → Bool)
    (class_name : ClassName) (gm : ℕ → ℕ → ℕ) : ℕ → ℕ → ℕ :=
  fun i j =>
    if gm i j = codes ClassName.sedimento ∨ gm i j = codes ClassName.macrofita then gm i j
    else if mask i j then codes class_name else gm i j

/-- Sequential application of `draw_detection_in_global_mask` for a list of
detections, as the detection loop of `segment_classes` performs. -/
def draw_all_detections (codes : ClassName → ℕ) (gm0 : ℕ → ℕ → ℕ)
    (dets : List ((ℕ → ℕ → Bool) × ClassName)) : ℕ → ℕ → ℕ :=
  dets.foldl (fun gm det => draw_detection_in_global_mask codes det.1 det.2 gm) gm0

/-- 3D point with exact rational coordinates. -/
structure Vec3 where
  x : ℚ
  y : ℚ
  z : ℚ
deriving DecidableEq

def Vec3.add (a b : Vec3) : Vec3 := ⟨a.x + b.x, a.y + b.y, a.z + b.z⟩

def Vec3.sub (a b : Vec3) : Vec3 := ⟨a.x - b.x, a.y - b.y, a.z - b.z⟩

def Vec3.scale (q : ℚ) (v : Vec3) : Vec3 := ⟨q * v.x, q * v.y, q * v.z⟩

/-- Dot product of two 3D vectors. -/
def dot3 (a b : Vec3) : ℚ := a.x * b.x + a.y * b.y + a.z * b.z

/-- Plane `a x + b y + c z + d = 0`. -/
structure Plane where
  a : ℚ
  b : ℚ
  c : ℚ
  d : ℚ
deriving DecidableEq

/-- The scalar `m = (normal . point + d) / (a*a + b*b + c*c)` of
`point_plane_distance_and_projection` (`metrics_estimation.py`, line 195). -/
def plane_m_value (point : Vec3) (pl : Plane) : ℚ :=
  (dot3 ⟨pl.a, pl.b, pl.c⟩ point + pl.d) / (pl.a * pl.a + pl.b * pl.b + pl.c * pl.c)

/-- The projected point `point - m * normal` of
`point_plane_distance_and_projection` (`metrics_estimation.py`, line 196). -/
def point_plane_projection (point : Vec3) (pl : Plane) : Vec3 :=
  point.sub (Vec3.scale (plane_m_value point pl) ⟨pl.a, pl.b, pl.c⟩)

/-- Squared euclidean length of `projected_point - point`; the code's
`distance` is its square root (`numpy.linalg.norm`). -/
def point_plane_distance_sq (point : Vec3) (pl : Plane) : ℚ :=
  dot3 ((point_plane_projection point pl).sub point)
    ((point_plane_projection point pl).sub point)

/-- The distance returned by `point_plane_distance_and_projection`:
`norm(projected_point - point)`, a non-negative square root. -/
noncomputable def point_plane_distance (point : Vec3) (pl : Plane) : ℝ :=
  Real.sqrt ((point_plane_distance_sq point pl : ℚ) : ℝ)

/-- `MetricsEstimation.point_plane_distance_and_projection`
(`metrics_estimation.py`, lines 182-198). -/
noncomputable def point_plane_distance_and_projection (point : Vec3) (pl : Plane) :
    ℝ × Vec3 :=
  (point_plane_distance point pl, point_plane_projection point pl)

/-- `MetricsEstimation.split_class_grid_ptcs`
(`metrics_estimation.py`, lines 200-241): scan the bounding-box region in
row-major order and collect `[col, row, depth]` points whose mask pixel holds
the class code (class cloud) or, failing that, the barragem code (grid
cloud). Returns `(grid points, class points)` as the source does. -/
def split_class_grid_ptcs (rows cols : ℕ) (mask : ℕ → ℕ → ℕ)
    (depth : ℕ → ℕ → ℚ) (classId barragemId : ℕ) : List Vec3 × List Vec3 :=
  (List.range rows).foldl (fun acc row =>
    (List.range cols).foldl (fun acc2 col =>
      if mask row col = classId then
        (acc2.1, acc2.2 ++ [⟨(col : ℚ), (row : ℚ), depth row col⟩])
      else if mask row col = barragemId then
        (acc2.1 ++ [⟨(col : ℚ), (row : ℚ), depth row col⟩], acc2.2)
      else acc2) acc) ([], [])

def minXList (p : Vec3) (ps : List Vec3) : ℚ := ps.foldl (fun m q => min m q.x) p.x

def maxXList (p : Vec3) (ps : List Vec3) : ℚ := ps.foldl (fun m q => max m q.x) p.x

def minYList (p : Vec3) (ps : List Vec3) : ℚ := ps.foldl (fun m q => min m q.y) p.y

def maxYList (p : Vec3) (ps : List Vec3) : ℚ := ps.foldl (fun m q => max m q.y) p.y

/-- The x bin step `(max_x - min_x) / n_cells_side` of
`get_grid_plane_candidate_points`. -/
def xStepOf (p : Vec3) (ps : List Vec3) (n : ℕ) : ℚ :=
  (maxXList p ps - minXList p ps) / (n : ℚ)

/-- The y bin step `(max_y - min_y) / n_cells_side` of
`get_grid_plane_candidate_points`. -/
def yStepOf (p : Vec3) (ps : List Vec3) (n : ℕ) : ℚ :=
  (maxYList p ps - minYList p ps) / (n : ℚ)

/-- Python dict update used by the binning loop: a key keeps its first
insertion position; an existing entry is replaced only when the new point has
a strictly lower z. -/
def updateBinDict : List ((ℤ × ℤ) × Vec3) → (ℤ × ℤ) → Vec3 → List ((ℤ × ℤ) × Vec3)
  | [], k, v => [(k, v)]
  | (k0, v0) :: rest, k, v =>
    if k0 = k then (if v.z < v0.z then (k0, v) else (k0, v0)) :: rest
    else (k0, v0) :: updateBinDict rest k v

/-- `MetricsEstimation.get_grid_plane_candidate_points`
(`metrics_estimation.py`, lines 128-159): bin the cloud into an n-by-n xy
grid and keep the lowest-z point of each bin; if either bin step is zero the
full point set is returned unchanged, so the bin-index division is never
performed with a zero step. An empty cloud would make `np.min` raise; the
model returns `[]` there (no claim uses it). -/
def get_grid_plane_candidate_points (grid_ptc : List Vec3) (n_cells_side : ℕ) :
    List Vec3 :=
  match grid_ptc with
  | [] => []
  | p :: ps =>
    let min_x := minXList p ps
    let min_y := minYList p ps
    let x_step := xStepOf p ps n_cells_side
    let y_step := yStepOf p ps n_cells_side
    if x_step = 0 ∨ y_step = 0 then p :: ps
    else
      ((p :: ps).foldl (fun dict q =>
        updateBinDict dict
          (pyInt ((q.x - min_x) / x_step), pyInt ((q.y - min_y) / y_step)) q) []).map
        (fun kv => kv.2)

/-- Symmetric 3x3 matrix of rationals (the covariance matrix `np.cov(points.T)`
computed by `fit_plane`). -/
structure Mat3 where
  xx : ℚ
  xy : ℚ
  xz : ℚ
  yx : ℚ
  yy : ℚ
  yz : ℚ
  zx : ℚ
  zy : ℚ
  zz : ℚ
deriving DecidableEq

/-- `np.mean(points, axis=0)`: the centroid. -/
def centroidOf (pts : List Vec3) : Vec3 :=
  Vec3.scale (1 / (pts.length : ℚ)) (pts.foldl Vec3.add ⟨0, 0, 0⟩)

/-- One covariance entry with numpy's default `ddof = 1` normalisation. -/
def covEntry (pts : List Vec3) (f g : Vec3 → ℚ) : ℚ :=
  (pts.foldl (fun s q => s + (f q - f (centroidOf pts)) * (g q - g (centroidOf pts))) 0) /
    ((pts.length : ℚ) - 1)

/-- `np.cov(points.T)` of the candidate points. -/
def covMat (pts : List Vec3) : Mat3 :=
  ⟨covEntry pts (fun v => v.x) (fun v => v.x), covEntry pts (fun v => v.x) (fun v => v.y),
   covEntry pts (fun v => v.x) (fun v => v.z), covEntry pts (fun v => v.y) (fun v => v.x),
   covEntry pts (fun v => v.y) (fun v => v.y), covEntry pts (fun v => v.y) (fun v => v.z),
   covEntry pts (fun v => v.z) (fun v => v.x), covEntry pts (fun v => v.z) (fun v => v.y),
   covEntry pts (fun v => v.z) (fun v => v.z)⟩

/-- `MetricsEstimation.fit_plane` (`metrics_estimation.py`, lines 161-180):
the plane normal is the eigenvector of the covariance matrix with the
smallest eigenvalue - `numpy.linalg.eigh` is an external numeric routine,
modelled by the oracle `eigh`; the offset is `d = -(normal . centroid)`. -/
def fit_plane (eigh : Mat3 → Vec3) (pts : List Vec3) : Plane :=
  ⟨(eigh (covMat pts)).x, (eigh (covMat pts)).y, (eigh (covMat pts)).z,
   -(dot3 (eigh (covMat pts)) (centroidOf pts))⟩

/-- `MetricsEstimation.estimate_original_grid_plane`
(`metrics_estimation.py`, lines 107-126): fit the plane to the candidate
points obtained with `n_cells_side = 10`. -/
def estimate_original_grid_plane (eigh : Mat3 → Vec3) (grid_pts : List Vec3) : Plane :=
  fit_plane eigh (get_grid_plane_candidate_points grid_pts 10)

/-- `MetricsEstimation.create_grid_aligned_ptc`
(`metrics_estimation.py`, lines 303-324): project every grid point onto the
plane. -/
def create_grid_aligned_ptc (grid_pts : List Vec3) (pl : Plane) : List Vec3 :=
  grid_pts.map (fun p => point_plane_projection p pl)

/-- `MetricsEstimation.smooth_class_from_grid_plane`
(`metrics_estimation.py`, lines 326-362): for each class point, average it
with its k-nearest neighbours in the concatenated class-plus-grid cloud. The
KD-tree search is the open3d `search_knn_vector_3d` call, modelled by the
oracle `knn` returning the neighbour indices into the concatenated cloud. -/
def smooth_class_from_grid_plane (knn : Vec3 → List Vec3 → List ℕ)
    (grid_pts class_pts : List Vec3) (pl : Plane) : List Vec3 :=
  let full := class_pts ++ grid_pts
  class_pts.map (fun p =>
    let idx := knn p full
    let sp := idx.foldl (fun acc i => acc.add (full.getD i ⟨0, 0, 0⟩)) p
    Vec3.scale (1 / ((idx.length : ℚ) + 1)) sp)

/-- Meters-per-pixel dictionary handed to `MetricsEstimation`. -/
structure MPerPixel where
  x_res : ℚ
  y_res : ℚ
deriving DecidableEq

/-- `MetricsEstimation.calculate_detection_area`
(`metrics_estimation.py`, lines 266-282): one `x_res * y_res` pixel footprint
per class point (the projection computed per point is unused). -/
def calculate_detection_area (pts : List Vec3) (mpp : MPerPixel) (pl : Plane) : ℚ :=
  (pts.map (fun _ => mpp.x_res * mpp.y_res)).sum

/-- `MetricsEstimation.calculate_detection_volume`
(`metrics_estimation.py`, lines 243-264): per class point, the pixel volume
`x_res * y_res * z_res * distance-to-plane`, with
`z_res = (x_res + y_res) / 2`. -/
noncomputable def calculate_detection_volume (pts : List Vec3) (mpp : MPerPixel)
    (pl : Plane) : ℝ :=
  (pts.map (fun p =>
    ((mpp.x_res * mpp.y_res * ((mpp.x_res + mpp.y_res) / 2) : ℚ) : ℝ) *
      point_plane_distance p pl)).sum

/-- Mutable state of a `MetricsEstimation` instance relevant to the claims:
the sticky grid plane model (`metrics_estimation.py`, line 40). -/
structure EstState where
  grid_plane_model : Option Plane
deriving DecidableEq

/-- The enlarged box computed at the start of `estimate_blocking_area_volume`
(margins `h, w = 0.1, 0.1`). -/
def est_box (box : Box) (imgH imgW : ℤ) : Box :=
  enlargeBox box (1 / 10) (1 / 10) imgW imgH

/-- Height in pixels of the enlarged bounding-box region. -/
def est_rows (box : Box) (imgH imgW : ℤ) : ℕ :=
  ((est_box box imgH imgW).y2 - (est_box box imgH imgW).y1).toNat

/-- Width in pixels of the enlarged bounding-box region. -/
def est_cols (box : Box) (imgH imgW : ℤ) : ℕ :=
  ((est_box box imgH imgW).x2 - (est_box box imgH imgW).x1).toNat

/-- The mask cropped to the enlarged box (`mask[box[1]:box[3], box[0]:box[2]]`). -/
def est_mask_bbox (box : Box) (imgH imgW : ℤ) (mask : ℕ → ℕ → ℕ) : ℕ → ℕ → ℕ :=
  fun r c => mask ((est_box box imgH imgW).y1.toNat + r) ((est_box box imgH imgW).x1.toNat + c)

/-- The depth image of the cropped region; the depth-estimation network run on
the cropped RGB image is an external model, so the cropped depth image itself
is the oracle input `depth`. -/
def est_depth_bbox (box : Box) (imgH imgW : ℤ) (depth : ℕ → ℕ → ℚ) : ℕ → ℕ → ℚ :=
  fun r c => depth ((est_box box imgH imgW).y1.toNat + r) ((est_box box imgH imgW).x1.toNat + c)

/-- The `(grid cloud, class cloud)` pair that `estimate_blocking_area_volume`
obtains from `split_class_grid_ptcs` on the enlarged box region. -/
def est_split (imgH imgW : ℤ) (box : Box) (mask : ℕ → ℕ → ℕ) (depth : ℕ → ℕ → ℚ)
    (classId barragemId : ℕ) : List Vec3 × List Vec3 :=
  split_class_grid_ptcs (est_rows box imgH imgW) (est_cols box imgH imgW)
    (est_mask_bbox box imgH imgW mask) (est_depth_bbox box imgH imgW depth)
    classId barragemId

/-- The grid (reference) point cloud of the call. -/
def est_grid_points (imgH imgW : ℤ) (box : Box) (mask : ℕ → ℕ → ℕ)
    (depth : ℕ → ℕ → ℚ) (classId barragemId : ℕ) : List Vec3 :=
  (est_split imgH imgW box mask depth classId barragemId).1

/-- The class (target) point cloud of the call. -/
def est_class_points (imgH imgW : ℤ) (box : Box) (mask : ℕ → ℕ → ℕ)
    (depth : ℕ → ℕ → ℚ) (classId barragemId : ℕ) : List Vec3 :=
  (est_split imgH imgW box mask depth classId barragemId).2

/-- Everything observable after a call to `estimate_blocking_area_volume`:
the updated instance state, the (mutated) box argument, and the returned
area and volume. -/
structure EstOutput where
  state : EstState
  box : Box
  area : ℚ
  volume : ℝ

/-- Lines 76-78 of `metrics_estimation.py`: when the grid cloud has more than
3 points a fresh plane is fitted from it and stored in
`self.grid_plane_model`; otherwise the stored state is kept. -/
def est_updated_state (st : EstState) (imgH imgW : ℤ) (box : Box)
    (mask : ℕ → ℕ → ℕ) (depth : ℕ → ℕ → ℚ) (classId barragemId : ℕ)
    (eigh : Mat3 → Vec3) : EstState :=
  if 3 < (est_grid_points imgH imgW box mask depth classId barragemId).length then
    ⟨some (estimate_original_grid_plane eigh
      (est_grid_points imgH imgW box mask depth classId barragemId))⟩
  else st

/-- `MetricsEstimation.estimate_blocking_area_volume`
(`metrics_estimation.py`, lines 42-105): enlarge the box in place, split the
cropped region into grid and class clouds, fit and store a fresh plane when
the grid cloud has more than 3 points (`est_updated_state`), return `(0, 0)`
when the stored plane model is still `None` afterwards, and otherwise
integrate area and volume of the class cloud - smoothed along the
plane-aligned grid cloud when the grid cloud has more than 3 points - against
the stored plane. (When the fresh fit just happened the stored model is that
fresh plane, never `None`, exactly as in the source.) -/
noncomputable def estimate_blocking_area_volume (st : EstState) (mpp : MPerPixel)
    (imgH imgW : ℤ) (box : Box) (mask : ℕ → ℕ → ℕ) (depth : ℕ → ℕ → ℚ)
    (classId barragemId : ℕ) (eigh : Mat3 → Vec3)
    (knn : Vec3 → List Vec3 → List ℕ) : EstOutput :=
  match (est_updated_state st imgH imgW box mask depth classId barragemId
      eigh).grid_plane_model with
  | none =>
    ⟨est_updated_state st imgH imgW box mask depth classId barragemId eigh,
     est_box box imgH imgW, 0, 0⟩
  | some pl =>
    ⟨est_updated_state st imgH imgW box mask depth classId barragemId eigh,
     est_box box imgH imgW,
     calculate_detection_area
       (if 3 < (est_grid_points imgH imgW box mask depth classId barragemId).length then
         smooth_class_from_grid_plane knn
           (create_grid_aligned_ptc
             (est_grid_points imgH imgW box mask depth classId barragemId) pl)
           (est_class_points imgH imgW box mask depth classId barragemId) pl
        else est_class_points imgH imgW box mask depth classId barragemId) mpp pl,
     calculate_detection_volume
       (if 3 < (est_grid_points imgH imgW box mask depth classId barragemId).length then
         smooth_class_from_grid_plane knn
           (create_grid_aligned_ptc
             (est_grid_points imgH imgW box mask depth classId barragemId) pl)
           (est_class_points imgH imgW box mask depth classId barragemId) pl
        else est_class_points imgH imgW box mask depth classId barragemId) mpp pl⟩

/-- Concrete class-code assignment (background plus the five model classes)
used by the C6 instances. -/
def codesEx : ClassName → ℕ
  | ClassName.background => 0
  | ClassName.barragem => 1
  | ClassName.coluna => 2
  | ClassName.macrofita => 3
  | ClassName.sedimento => 4
  | ClassName.tronco => 5

/-- The rectifier of the C1 concrete scenario: barrier dimensions
`grid_width = 10`, `grid_height = 10`, `collumn_width = 3`, `x_res = 0.1`,
with collumn boxes `[50,20,70,100]`, `[150,20,170,100]` and structure box
`[0,0,200,100]`. -/
def rectifierExample : ImageRectification :=
  (ImageRectification.init 10 10 3 (1 / 10)).set_detected_boxes
    [⟨50, 20, 70, 100⟩, ⟨150, 20, 170, 100⟩] [⟨0, 0, 200, 100⟩]

/-- A rectifier whose metric widths are not integer multiples of the
resolution: `grid_width = collumn_width = 3` meters at `x_res = 2` m/px, so
`3 / 2 = 1.5` and `int(1.5) = 1` while `round(1.5) = 2`. One collumn box
`[40,10,60,100]` inside the structure box `[0,0,100,100]`. -/
def rectifierHalfPx : ImageRectification :=
  (ImageRectification.init 3 10 3 2).set_detected_boxes
    [⟨40, 10, 60, 100⟩] [⟨0, 0, 100, 100⟩]

theorem aux_fold_min_le (ps : List Vec3) (f : Vec3 → ℚ) (a : ℚ) :
    ps.foldl (fun m q => min m (f q)) a ≤ a ∧
      ∀ q ∈ ps, ps.foldl (fun m q => min m (f q)) a ≤ f q := by
  induction ps generalizing a with
  | nil => simp
  | cons q ps ih =>
    refine ⟨(ih (min a (f q))).1.trans (min_le_left _ _), ?_⟩
    intro r hr
    rcases List.mem_cons.1 hr with h | h
    · subst h
      exact (ih (min a (f r))).1.trans (min_le_right _ _)
    · exact (ih (min a (f q))).2 r h

theorem aux_fold_le_max (ps : List Vec3) (f : Vec3 → ℚ) (a : ℚ) :
    a ≤ ps.foldl (fun m q => max m (f q)) a ∧
      ∀ q ∈ ps, f q ≤ ps.foldl (fun m q => max m (f q)) a := by
  induction ps generalizing a with
  | nil => simp
  | cons q ps ih =>
    refine ⟨(le_max_left _ _).trans (ih (max a (f q))).1, ?_⟩
    intro r hr
    rcases List.mem_cons.1 hr with h | h
    · subst h
      exact (le_max_right _ _).trans (ih (max a (f r))).1
    · exact (ih (max a (f q))).2 r h

theorem aux_fold_min_const (ps : List Vec3) (f : Vec3 → ℚ) (a : ℚ)
    (h : ∀ q ∈ ps, f q = a) : ps.foldl (fun m q => min m (f q)) a = a := by
  induction ps with
  | nil => rfl
  | cons q ps ih =>
    have hq : f q = a := h q (List.mem_cons_self _ _)
    have : ∀ r ∈ ps, f r = a := fun r hr => h r (List.mem_cons_of_mem _ hr)
    simp only [List.foldl_cons, hq, min_self]
    exact ih this

theorem aux_fold_max_const (ps : List Vec3) (f : Vec3 → ℚ) (a : ℚ)
    (h : ∀ q ∈ ps, f q = a) : ps.foldl (fun m q => max m (f q)) a = a := by
  induction ps with
  | nil => rfl
  | cons q ps ih =>
    have hq : f q = a := h q (List.mem_cons_self _ _)
    have : ∀ r ∈ ps, f r = a := fun r hr => h r (List.mem_cons_of_mem _ hr)
    simp only [List.foldl_cons, hq, max_self]
    exact ih this

/-- C10 (confirmed): for a non-empty point cloud in which all points share
the same x coordinate or all share the same y coordinate, the bin steps are
zero and `get_grid_plane_candidate_points` returns the full point set
unchanged, so the bin-index division is never performed with a zero step;
for any other non-empty cloud both bin steps are nonzero. -/
theorem c10_degenerate_binning (p : Vec3) (ps : List Vec3) (n : ℕ) (hn : 0 < n) :
    (((∀ q ∈ p :: ps, q.x = p.x) ∨ (∀ q ∈ p :: ps, q.y = p.y)) →
        get_grid_plane_candidate_points (p :: ps) n = p :: ps) ∧
      (¬((∀ q ∈ p :: ps, q.x = p.x) ∨ (∀ q ∈ p :: ps, q.y = p.y)) →
        xStepOf p ps n ≠ 0 ∧ yStepOf p ps n ≠ 0) := by
  constructor
  · intro hall
    have hstep : xStepOf p ps n = 0 ∨ yStepOf p ps n = 0 := by
      rcases hall with hx | hy
      · left
        have hx' : ∀ q ∈ ps, q.x = p.x := fun q hq => hx q (List.mem_cons_of_mem _ hq)
        unfold xStepOf maxXList minXList
        rw [aux_fold_max_const ps (fun v => v.x) p.x hx',
          aux_fold_min_const ps (fun v => v.x) p.x hx']
        simp
      · right
        have hy' : ∀ q ∈ ps, q.y = p.y := fun q hq => hy q (List.mem_cons_of_mem _ hq)
        unfold yStepOf maxYList minYList
        rw [aux_fold_max_const ps (fun v => v.y) p.y hy',
          aux_fold_min_const ps (fun v => v.y) p.y hy']
        simp
    simp only [get_grid_plane_candidate_points]
    rw [if_pos hstep]
  · intro hall
    push_neg at hall
    obtain ⟨⟨qx, hqxmem, hqx⟩, ⟨qy, hqymem, hqy⟩⟩ := hall
    constructor
    · have hmin : minXList p ps ≤ min p.x qx.x := by
        rcases List.mem_cons.1 hqxmem with h | h
        · exact absurd (h ▸ rfl) hqx
        · exact le_min (aux_fold_min_le ps (fun v => v.x) p.x).1
            ((aux_fold_min_le ps (fun v => v.x) p.x).2 qx h)
      have hmax : max p.x qx.x ≤ maxXList p ps := by
        rcases List.mem_cons.1 hqxmem with h | h
        · exact absurd (h ▸ rfl) hqx
        · exact max_le (aux_fold_le_max ps (fun v => v.x) p.x).1
            ((aux_fold_le_max ps (fun v => v.x) p.x).2 qx h)
      have hlt : minXList p ps < maxXList p ps :=
        hmin.trans_lt ((min_lt_max.2 (Ne.symm hqx)).trans_le hmax)
      unfold xStepOf
      exact ne_of_gt (div_pos (sub_pos.2 hlt) (by exact_mod_cast hn))
    · have hmin : minYList p ps ≤ min p.y qy.y := by
        rcases List.mem_cons.1 hqymem with h | h
        · exact absurd (h ▸ rfl) hqy
        · exact le_min (aux_fold_min_le ps (fun v => v.y) p.y).1
            ((aux_fold_min_le ps (fun v => v.y) p.y).2 qy h)
      have hmax : max p.y qy.y ≤ maxYList p ps := by
        rcases List.mem_cons.1 hqymem with h | h
        · exact absurd (h ▸ rfl) hqy
        · exact max_le (aux_fold_le_max ps (fun v => v.y) p.y).1
            ((aux_fold_le_max ps (fun v => v.y) p.y).2 qy h)
      have hlt : minYList p ps < maxYList p ps :=
        hmin.trans_lt ((min_lt_max.2 (Ne.symm hqy)).trans_le hmax)
      unfold yStepOf
      exact ne_of_gt (div_pos (sub_pos.2 hlt) (by exact_mod_cast hn))

/-- Witness for C10: a two-point vertical cloud (shared x) is returned
unchanged, and a generic three-point cloud has nonzero bin steps. -/
theorem c10_degenerate_binning_witness :
    get_grid_plane_candidate_points [⟨1, 2, 3⟩, ⟨1, 5, 7⟩] 10 = [⟨1, 2, 3⟩, ⟨1, 5, 7⟩] ∧
      xStepOf ⟨1, 2, 3⟩ [⟨4, 5, 7⟩, ⟨2, 3, 1⟩] 10 ≠ 0 ∧
      yStepOf ⟨1, 2, 3⟩ [⟨4, 5, 7⟩, ⟨2, 3, 1⟩] 10 ≠ 0 :=
  ⟨(c10_degenerate_binning ⟨1, 2, 3⟩ [⟨1, 5, 7⟩] 10 (by decide)).1 (by decide),
   (c10_degenerate_binning ⟨1, 2, 3⟩ [⟨4, 5, 7⟩, ⟨2, 3, 1⟩] 10 (by decide)).2 (by decide)⟩

/-- C8 (confirmed): for a plane with nonzero normal and a point exactly on
the plane, `point_plane_distance_and_projection` returns distance 0 and the
point itself; and for every point and plane whatsoever the returned distance
is non-negative. -/
theorem c8_projection_roundtrip (pl : Plane) (p : Vec3)
    (hnz : ¬(pl.a = 0 ∧ pl.b = 0 ∧ pl.c = 0))
    (hon : pl.a * p.x + pl.b * p.y + pl.c * p.z + pl.d = 0) :
    point_plane_distance_and_projection p pl = ((0 : ℝ), p) ∧
      ∀ (q : Vec3) (pl2 : Plane), 0 ≤ (point_plane_distance_and_projection q pl2).1 := by
  have hm : plane_m_value p pl = 0 := by
    unfold plane_m_value dot3
    simp only
    rw [show pl.a * p.x + pl.b * p.y + pl.c * p.z + pl.d = 0 from hon, zero_div]
  have hproj : point_plane_projection p pl = p := by
    unfold point_plane_projection Vec3.sub Vec3.scale
    rw [hm]
    simp
  refine ⟨?_, fun q pl2 => Real.sqrt_nonneg _⟩
  unfold point_plane_distance_and_projection point_plane_distance point_plane_distance_sq
  rw [hproj]
  unfold Vec3.sub dot3
  simp

/-- Witness for C8 at the plane `z = 0` and the on-plane point `(1, 2, 0)`. -/
theorem c8_projection_roundtrip_witness :
    point_plane_distance_and_projection ⟨1, 2, 0⟩ ⟨0, 0, 1, 0⟩ = ((0 : ℝ), ⟨1, 2, 0⟩) ∧
      ∀ (q : Vec3) (pl2 : Plane), 0 ≤ (point_plane_distance_and_projection q pl2).1 :=
  c8_projection_roundtrip ⟨0, 0, 1, 0⟩ ⟨1, 2, 0⟩ (by decide) (by norm_num)

/-- C7 counterexample: for the box `[100,100,200,200]` strictly inside a
1000x1000 image with fractions `w = h = 0.1`, the code enlarges to
`[90,90,211,211]` while the symmetric enlargement the claim describes gives
`[90,90,210,210]`: the right and bottom edges move by the fraction of the
already-enlarged width/height, not of the original one. -/
theorem c7_symmetric_enlargement_counterexample :
    enlargeBox ⟨100, 100, 200, 200⟩ (1 / 10) (1 / 10) 1000 1000 = ⟨90, 90, 211, 211⟩ ∧
      enlargeBoxSpec ⟨100, 100, 200, 200⟩ (1 / 10) (1 / 10) 1000 1000 = ⟨90, 90, 210, 210⟩ ∧
      enlargeBox ⟨100, 100, 200, 200⟩ (1 / 10) (1 / 10) 1000 1000 ≠
        enlargeBoxSpec ⟨100, 100, 200, 200⟩ (1 / 10) (1 / 10) 1000 1000 := by
  refine ⟨?_, ?_, ?_⟩ <;> norm_num [enlargeBox, enlargeBoxSpec, pyInt, Box.mk.injEq]

/-- C7 (corrected): when no clamping is active, the left and top edges move
outward by the ceiling of the fraction times the original width/height, while
the right and bottom edges move outward by the floor of the fraction times
the already-left/top-expanded width/height (the code mutates the box in
place before computing them); the result always satisfies the clamps
`0 <= x1`, `x2 <= image_width`, `0 <= y1`, `y2 <= image_height`. -/
theorem c7_enlargement_displacements (box : Box) (w h : ℚ) (imgW imgH : ℤ)
    (hw : 0 ≤ w) (hh : 0 ≤ h)
    (hx12 : (box.x1 : ℚ) ≤ (box.x2 : ℚ)) (hy12 : (box.y1 : ℚ) ≤ (box.y2 : ℚ))
    (hlx : w * ((box.x2 : ℚ) - (box.x1 : ℚ)) ≤ (box.x1 : ℚ))
    (hly : h * ((box.y2 : ℚ) - (box.y1 : ℚ)) ≤ (box.y1 : ℚ))
    (hrx : (box.x2 : ℚ) + w * ((box.x2 : ℚ) -
        ((box.x1 - ⌈w * ((box.x2 : ℚ) - (box.x1 : ℚ))⌉ : ℤ) : ℚ)) ≤ (imgW : ℚ))
    (hry : (box.y2 : ℚ) + h * ((box.y2 : ℚ) -
        ((box.y1 - ⌈h * ((box.y2 : ℚ) - (box.y1 : ℚ))⌉ : ℤ) : ℚ)) ≤ (imgH : ℚ)) :
    enlargeBox box w h imgW imgH =
      ⟨box.x1 - ⌈w * ((box.x2 : ℚ) - (box.x1 : ℚ))⌉,
       box.y1 - ⌈h * ((box.y2 : ℚ) - (box.y1 : ℚ))⌉,
       box.x2 + ⌊w * ((box.x2 : ℚ) -
         ((box.x1 - ⌈w * ((box.x2 : ℚ) - (box.x1 : ℚ))⌉ : ℤ) : ℚ))⌋,
       box.y2 + ⌊h * ((box.y2 : ℚ) -
         ((box.y1 - ⌈h * ((box.y2 : ℚ) - (box.y1 : ℚ))⌉ : ℤ) : ℚ))⌋⟩ := by
  have hwx : 0 ≤ w * ((box.x2 : ℚ) - (box.x1 : ℚ)) :=
    mul_nonneg hw (sub_nonneg.2 hx12)
  have hhy : 0 ≤ h * ((box.y2 : ℚ) - (box.y1 : ℚ)) :=
    mul_nonneg hh (sub_nonneg.2 hy12)
  have hb0 : max 0 (pyInt ((box.x1 : ℚ) - w * ((box.x2 : ℚ) - (box.x1 : ℚ)))) =
      box.x1 - ⌈w * ((box.x2 : ℚ) - (box.x1 : ℚ))⌉ := by
    unfold pyInt
    rw [if_pos (sub_nonneg.2 hlx), sub_eq_neg_add, Int.floor_add_int, Int.floor_neg,
      neg_add_eq_sub]
    exact max_eq_right (sub_nonneg.2 (Int.ceil_le.2 hlx))
  have hb1 : max 0 (pyInt ((box.y1 : ℚ) - h * ((box.y2 : ℚ) - (box.y1 : ℚ)))) =
      box.y1 - ⌈h * ((box.y2 : ℚ) - (box.y1 : ℚ))⌉ := by
    unfold pyInt
    rw [if_pos (sub_nonneg.2 hly), sub_eq_neg_add, Int.floor_add_int, Int.floor_neg,
      neg_add_eq_sub]
    exact max_eq_right (sub_nonneg.2 (Int.ceil_le.2 hly))
  have hx1nonneg : (0 : ℚ) ≤ (box.x1 : ℚ) := hwx.trans hlx
  have hy1nonneg : (0 : ℚ) ≤ (box.y1 : ℚ) := hhy.trans hly
  have hb0le : ((box.x1 - ⌈w * ((box.x2 : ℚ) - (box.x1 : ℚ))⌉ : ℤ) : ℚ) ≤ (box.x2 : ℚ) := by
    push_cast
    have : (0 : ℚ) ≤ (⌈w * ((box.x2 : ℚ) - (box.x1 : ℚ))⌉ : ℚ) := by
      exact_mod_cast Int.ceil_nonneg hwx
    linarith
  have hb1le : ((box.y1 - ⌈h * ((box.y2 : ℚ) - (box.y1 : ℚ))⌉ : ℤ) : ℚ) ≤ (box.y2 : ℚ) := by
    push_cast
    have : (0 : ℚ) ≤ (⌈h * ((box.y2 : ℚ) - (box.y1 : ℚ))⌉ : ℚ) := by
      exact_mod_cast Int.ceil_nonneg hhy
    linarith
  have hb2 : min imgW (pyInt ((box.x2 : ℚ) + w * ((box.x2 : ℚ) -
      ((box.x1 - ⌈w * ((box.x2 : ℚ) - (box.x1 : ℚ))⌉ : ℤ) : ℚ)))) =
      box.x2 + ⌊w * ((box.x2 : ℚ) -
        ((box.x1 - ⌈w * ((box.x2 : ℚ) - (box.x1 : ℚ))⌉ : ℤ) : ℚ))⌋ := by
    have harg : (0 : ℚ) ≤ (box.x2 : ℚ) + w * ((box.x2 : ℚ) -
        ((box.x1 - ⌈w * ((box.x2 : ℚ) - (box.x1 : ℚ))⌉ : ℤ) : ℚ)) := by
      have := mul_nonneg hw (sub_nonneg.2 hb0le)
      linarith [hx1nonneg.trans hx12]
    unfold pyInt
    rw [if_pos harg, show ((box.x2 : ℚ) + w * ((box.x2 : ℚ) -
      ((box.x1 - ⌈w * ((box.x2 : ℚ) - (box.x1 : ℚ))⌉ : ℤ) : ℚ))) =
      ((box.x2 : ℤ) : ℚ) + w * ((box.x2 : ℚ) -
      ((box.x1 - ⌈w * ((box.x2 : ℚ) - (box.x1 : ℚ))⌉ : ℤ) : ℚ)) from rfl,
      Int.floor_int_add]
    refine min_eq_right ?_
    have hfl : ⌊((box.x2 : ℤ) : ℚ) + w * ((box.x2 : ℚ) -
        ((box.x1 - ⌈w * ((box.x2 : ℚ) - (box.x1 : ℚ))⌉ : ℤ) : ℚ))⌋ ≤ imgW := by
      calc ⌊((box.x2 : ℤ) : ℚ) + w * ((box.x2 : ℚ) -
          ((box.x1 - ⌈w * ((box.x2 : ℚ) - (box.x1 : ℚ))⌉ : ℤ) : ℚ))⌋ ≤ ⌊(imgW : ℚ)⌋ :=
            Int.floor_le_floor hrx
        _ = imgW := Int.floor_intCast imgW
    rw [Int.floor_int_add] at hfl
    exact hfl
  have hb3 : min imgH (pyInt ((box.y2 : ℚ) + h * ((box.y2 : ℚ) -
      ((box.y1 - ⌈h * ((box.y2 : ℚ) - (box.y1 : ℚ))⌉ : ℤ) : ℚ)))) =
      box.y2 + ⌊h * ((box.y2 : ℚ) -
        ((box.y1 - ⌈h * ((box.y2 : ℚ) - (box.y1 : ℚ))⌉ : ℤ) : ℚ))⌋ := by
    have harg : (0 : ℚ) ≤ (box.y2 : ℚ) + h * ((box.y2 : ℚ) -
        ((box.y1 - ⌈h * ((box.y2 : ℚ) - (box.y1 : ℚ))⌉ : ℤ) : ℚ)) := by
      have := mul_nonneg hh (sub_nonneg.2 hb1le)
      linarith [hy1nonneg.trans hy12]
    unfold pyInt
    rw [if_pos harg, show ((box.y2 : ℚ) + h * ((box.y2 : ℚ) -
      ((box.y1 - ⌈h * ((box.y2 : ℚ) - (box.y1 : ℚ))⌉ : ℤ) : ℚ))) =
      ((box.y2 : ℤ) : ℚ) + h * ((box.y2 : ℚ) -
      ((box.y1 - ⌈h * ((box.y2 : ℚ) - (box.y1 : ℚ))⌉ : ℤ) : ℚ)) from rfl,
      Int.floor_int_add]
    refine min_eq_right ?_
    have hfl : ⌊((box.y2 : ℤ) : ℚ) + h * ((box.y2 : ℚ) -
        ((box.y1 - ⌈h * ((box.y2 : ℚ) - (box.y1 : ℚ))⌉ : ℤ) : ℚ))⌋ ≤ imgH := by
      calc ⌊((box.y2 : ℤ) : ℚ) + h * ((box.y2 : ℚ) -
          ((box.y1 - ⌈h * ((box.y2 : ℚ) - (box.y1 : ℚ))⌉ : ℤ) : ℚ))⌋ ≤ ⌊(imgH : ℚ)⌋ :=
            Int.floor_le_floor hry
        _ = imgH := Int.floor_intCast imgH
    rw [Int.floor_int_add] at hfl
    exact hfl
  unfold enlargeBox
  simp only [hb0, hb1]
  simp only [hb2, hb3]

/-- Witness for C7: the amended displacement formula evaluated at the box
`[100,100,200,200]` in a 1000x1000 image with fractions 0.1 yields
`[90,90,211,211]`. -/
theorem c7_enlargement_displacements_witness :
    enlargeBox ⟨100, 100, 200, 200⟩ (1 / 10) (1 / 10) 1000 1000 = ⟨90, 90, 211, 211⟩ := by
  have hmain := c7_enlargement_displacements ⟨100, 100, 200, 200⟩ (1 / 10) (1 / 10) 1000 1000
    (by norm_num) (by norm_num) (by norm_num) (by norm_num) (by norm_num) (by norm_num)
    (by norm_num) (by norm_num)
  rw [hmain]
  norm_num [Box.mk.injEq]

/-- C6 counterexample: with the concrete class codes, a pixel that holds the
tronco code (a target-obstruction class) is overwritten by a later barragem
draw, because `draw_detection_in_global_mask` only protects pixels holding
the sedimento or macrofita codes. -/
theorem c6_tronco_overwritten_counterexample :
    (fun (_ _ : ℕ) => codesEx ClassName.tronco) 0 0 = codesEx ClassName.tronco ∧
      draw_all_detections codesEx (fun _ _ => codesEx ClassName.tronco)
        [(fun _ _ => true, ClassName.barragem)] 0 0 = codesEx ClassName.barragem ∧
      codesEx ClassName.barragem ≠ codesEx ClassName.tronco := by
  refine ⟨rfl, ?_, by decide⟩
  rfl

/-- C6 (corrected): once a pixel holds the sedimento or the macrofita class
code, no later sequence of detection draws ever changes it; the tronco code
is not protected in the same way. -/
theorem c6_sedimento_macrofita_never_overwritten (codes : ClassName → ℕ)
    (dets : List ((ℕ → ℕ → Bool) × ClassName)) (gm : ℕ → ℕ → ℕ) (i j : ℕ)
    (hp : gm i j = codes ClassName.sedimento ∨ gm i j = codes ClassName.macrofita) :
    draw_all_detections codes gm dets i j = gm i j := by
  induction dets generalizing gm with
  | nil => rfl
  | cons d rest ih =>
    have hstep : draw_detection_in_global_mask codes d.1 d.2 gm i j = gm i j := by
      unfold draw_detection_in_global_mask
      rw [if_pos hp]
    have hp2 : draw_detection_in_global_mask codes d.1 d.2 gm i j =
        codes ClassName.sedimento ∨
        draw_detection_in_global_mask codes d.1 d.2 gm i j = codes ClassName.macrofita := by
      rw [hstep]
      exact hp
    unfold draw_all_detections at ih ⊢
    rw [List.foldl_cons, ih (draw_detection_in_global_mask codes d.1 d.2 gm) hp2, hstep]

/-- Witness for C6: a pixel holding the sedimento code survives a barragem
draw over it. -/
theorem c6_sedimento_macrofita_never_overwritten_witness :
    draw_all_detections codesEx (fun _ _ => codesEx ClassName.sedimento)
      [(fun _ _ => true, ClassName.barragem)] 0 0 = codesEx ClassName.sedimento :=
  c6_sedimento_macrofita_never_overwritten codesEx
    [(fun _ _ => true, ClassName.barragem)] (fun _ _ => codesEx ClassName.sedimento) 0 0
    (Or.inl rfl)

theorem aux_estimate_stale_none (st : EstState) (mpp : MPerPixel) (imgH imgW : ℤ)
    (box : Box) (mask : ℕ → ℕ → ℕ) (depth : ℕ → ℕ → ℚ) (classId barragemId : ℕ)
    (eigh : Mat3 → Vec3) (knn : Vec3 → List Vec3 → List ℕ)
    (hg : ¬3 < (est_grid_points imgH imgW box mask depth classId barragemId).length)
    (hn : st.grid_plane_model = none) :
    estimate_blocking_area_volume st mpp imgH imgW box mask depth classId barragemId
      eigh knn = ⟨st, est_box box imgH imgW, 0, 0⟩ := by
  have hupd : est_updated_state st imgH imgW box mask depth classId barragemId eigh = st := by
    unfold est_updated_state
    rw [if_neg hg]
  unfold estimate_blocking_area_volume
  rw [hupd, hn]

theorem aux_estimate_stale_some (st : EstState) (mpp : MPerPixel) (imgH imgW : ℤ)
    (box : Box) (mask : ℕ → ℕ → ℕ) (depth : ℕ → ℕ → ℚ) (classId barragemId : ℕ)
    (eigh : Mat3 → Vec3) (knn : Vec3 → List Vec3 → List ℕ) (pl : Plane)
    (hg : ¬3 < (est_grid_points imgH imgW box mask depth classId barragemId).length)
    (hs : st.grid_plane_model = some pl) :
    estimate_blocking_area_volume st mpp imgH imgW box mask depth classId barragemId
      eigh knn =
      ⟨st, est_box box imgH imgW,
       calculate_detection_area
         (est_class_points imgH imgW box mask depth classId barragemId) mpp pl,
       calculate_detection_volume
         (est_class_points imgH imgW box mask depth classId barragemId) mpp pl⟩ := by
  have hupd : est_updated_state st imgH imgW box mask depth classId barragemId eigh = st := by
    unfold est_updated_state
    rw [if_neg hg]
  unfold estimate_blocking_area_volume
  rw [hupd, hs]
  simp only [if_neg hg]

theorem aux_estimate_fresh (st : EstState) (mpp : MPerPixel) (imgH imgW : ℤ)
    (box : Box) (mask : ℕ → ℕ → ℕ) (depth : ℕ → ℕ → ℚ) (classId barragemId : ℕ)
    (eigh : Mat3 → Vec3) (knn : Vec3 → List Vec3 → List ℕ)
    (hg : 3 < (est_grid_points imgH imgW box mask depth classId barragemId).length) :
    estimate_blocking_area_volume st mpp imgH imgW box mask depth classId barragemId
      eigh knn =
      ⟨⟨some (estimate_original_grid_plane eigh
          (est_grid_points imgH imgW box mask depth classId barragemId))⟩,
       est_box box imgH imgW,
       calculate_detection_area
         (smooth_class_from_grid_plane knn
           (create_grid_aligned_ptc
             (est_grid_points imgH imgW box mask depth classId barragemId)
             (estimate_original_grid_plane eigh
               (est_grid_points imgH imgW box mask depth classId barragemId)))
           (est_class_points imgH imgW box mask depth classId barragemId)
           (estimate_original_grid_plane eigh
             (est_grid_points imgH imgW box mask depth classId barragemId))) mpp
         (estimate_original_grid_plane eigh
           (est_grid_points imgH imgW box mask depth classId barragemId)),
       calculate_detection_volume
         (smooth_class_from_grid_plane knn
           (create_grid_aligned_ptc
             (est_grid_points imgH imgW box mask depth classId barragemId)
             (estimate_original_grid_plane eigh
               (est_grid_points imgH imgW box mask depth classId barragemId)))
           (est_class_points imgH imgW box mask depth classId barragemId)
           (estimate_original_grid_plane eigh
             (est_grid_points imgH imgW box mask depth classId barragemId))) mpp
         (estimate_original_grid_plane eigh
           (est_grid_points imgH imgW box mask depth classId barragemId))⟩ := by
  have hupd : est_updated_state st imgH imgW box mask depth classId barragemId eigh =
      ⟨some (estimate_original_grid_plane eigh
        (est_grid_points imgH imgW box mask depth classId barragemId))⟩ := by
    unfold est_updated_state
    rw [if_pos hg]
  unfold estimate_blocking_area_volume
  rw [hupd]
  simp only [if_pos hg]

/-- C9 (corrected): `estimate_blocking_area_volume` does mutate its box
argument: after the call the box holds the enlarged, clamped coordinates
(`est_box`, the in-place enlargement), which satisfy the image-bound clamps;
no other input is touched. -/
theorem c9_box_becomes_enlarged (st : EstState) (mpp : MPerPixel) (imgH imgW : ℤ)
    (box : Box) (mask : ℕ → ℕ → ℕ) (depth : ℕ → ℕ → ℚ) (classId barragemId : ℕ)
    (eigh : Mat3 → Vec3) (knn : Vec3 → List Vec3 → List ℕ) :
    (estimate_blocking_area_volume st mpp imgH imgW box mask depth classId barragemId
        eigh knn).box = est_box box imgH imgW ∧
      0 ≤ (estimate_blocking_area_volume st mpp imgH imgW box mask depth classId
        barragemId eigh knn).box.x1 ∧
      (estimate_blocking_area_volume st mpp imgH imgW box mask depth classId
        barragemId eigh knn).box.x2 ≤ imgW ∧
      0 ≤ (estimate_blocking_area_volume st mpp imgH imgW box mask depth classId
        barragemId eigh knn).box.y1 ∧
      (estimate_blocking_area_volume st mpp imgH imgW box mask depth classId
        barragemId eigh knn).box.y2 ≤ imgH := by
  have hbox : (estimate_blocking_area_volume st mpp imgH imgW box mask depth classId
      barragemId eigh knn).box = est_box box imgH imgW := by
    by_cases hg : 3 < (est_grid_points imgH imgW box mask depth classId barragemId).length
    · rw [aux_estimate_fresh st mpp imgH imgW box mask depth classId barragemId eigh knn hg]
    · cases hopt : st.grid_plane_model with
      | none =>
        rw [aux_estimate_stale_none st mpp imgH imgW box mask depth classId barragemId
          eigh knn hg hopt]
      | some pl =>
        rw [aux_estimate_stale_some st mpp imgH imgW box mask depth classId barragemId
          eigh knn pl hg hopt]
  refine ⟨hbox, ?_, ?_, ?_, ?_⟩ <;> rw [hbox] <;> unfold est_box enlargeBox <;> simp only
  · exact le_max_left _ _
  · exact min_le_left _ _
  · exact le_max_left _ _
  · exact min_le_left _ _

theorem aux_est_box_tiny : est_box ⟨2, 2, 4, 4⟩ 10 10 = ⟨1, 1, 4, 4⟩ := by
  norm_num [est_box, enlargeBox, pyInt, Box.mk.injEq]

theorem aux_est_grid_tiny :
    est_grid_points 10 10 ⟨2, 2, 4, 4⟩ (fun _ _ => 0) (fun _ _ => 0) 2 1 = [] := by
  unfold est_grid_points est_split est_rows est_cols
  rw [aux_est_box_tiny]
  decide

/-- C9 counterexample: calling `estimate_blocking_area_volume` on the box
`[2,2,4,4]` inside a 10x10 image leaves the caller's box holding `[1,1,4,4]`
- the enlarged coordinates - not the original four values. -/
theorem c9_box_mutation_counterexample :
    (estimate_blocking_area_volume ⟨none⟩ ⟨1 / 10, 1 / 10⟩ 10 10 ⟨2, 2, 4, 4⟩
        (fun _ _ => 0) (fun _ _ => 0) 2 1 (fun _ => ⟨0, 0, 1⟩) (fun _ _ => [])).box ≠
      (⟨2, 2, 4, 4⟩ : Box) := by
  rw [aux_estimate_stale_none ⟨none⟩ ⟨1 / 10, 1 / 10⟩ 10 10 ⟨2, 2, 4, 4⟩
    (fun _ _ => 0) (fun _ _ => 0) 2 1 (fun _ => ⟨0, 0, 1⟩) (fun _ _ => [])
    (by rw [aux_est_grid_tiny]; decide) rfl]
  rw [show (⟨⟨none⟩, est_box ⟨2, 2, 4, 4⟩ 10 10, 0, 0⟩ : EstOutput).box =
    est_box ⟨2, 2, 4, 4⟩ 10 10 from rfl, aux_est_box_tiny]
  decide

theorem aux_area_nonneg (pts : List Vec3) (mpp : MPerPixel) (pl : Plane)
    (hx : 0 ≤ mpp.x_res) (hy : 0 ≤ mpp.y_res) :
    0 ≤ calculate_detection_area pts mpp pl := by
  unfold calculate_detection_area
  refine List.sum_nonneg ?_
  intro a ha
  obtain ⟨p, hp, rfl⟩ := List.mem_map.1 ha
  exact mul_nonneg hx hy

theorem aux_volume_nonneg (pts : List Vec3) (mpp : MPerPixel) (pl : Plane)
    (hx : 0 ≤ mpp.x_res) (hy : 0 ≤ mpp.y_res) :
    0 ≤ calculate_detection_volume pts mpp pl := by
  unfold calculate_detection_volume
  refine List.sum_nonneg ?_
  intro a ha
  obtain ⟨p, hp, rfl⟩ := List.mem_map.1 ha
  refine mul_nonneg ?_ (Real.sqrt_nonneg _)
  have hq : (0 : ℚ) ≤ mpp.x_res * mpp.y_res * ((mpp.x_res + mpp.y_res) / 2) :=
    mul_nonneg (mul_nonneg hx hy) (by positivity)
  exact_mod_cast hq

/-- C2 (confirmed): with positive resolutions, `estimate_blocking_area_volume`
never returns a negative area or volume, and when the grid (reference) cloud
has 3 or fewer points while no previously fitted plane exists it returns
exactly `(0, 0)`. -/
theorem c2_area_volume_nonneg_and_degenerate (st : EstState) (mpp : MPerPixel)
    (imgH imgW : ℤ) (box : Box) (mask : ℕ → ℕ → ℕ) (depth : ℕ → ℕ → ℚ)
    (classId barragemId : ℕ) (eigh : Mat3 → Vec3) (knn : Vec3 → List Vec3 → List ℕ)
    (hx : 0 < mpp.x_res) (hy : 0 < mpp.y_res) :
    0 ≤ (estimate_blocking_area_volume st mpp imgH imgW box mask depth classId
      barragemId eigh knn).area ∧
    0 ≤ (estimate_blocking_area_volume st mpp imgH imgW box mask depth classId
      barragemId eigh knn).volume ∧
    (((est_grid_points imgH imgW box mask depth classId barragemId).length ≤ 3 ∧
        st.grid_plane_model = none) →
      (estimate_blocking_area_volume st mpp imgH imgW box mask depth classId
        barragemId eigh knn).area = 0 ∧
      (estimate_blocking_area_volume st mpp imgH imgW box mask depth classId
        barragemId eigh knn).volume = 0) := by
  refine ⟨?_, ?_, ?_⟩
  · by_cases hg : 3 < (est_grid_points imgH imgW box mask depth classId barragemId).length
    · rw [aux_estimate_fresh st mpp imgH imgW box mask depth classId barragemId eigh knn hg]
      dsimp only
      exact aux_area_nonneg _ mpp _ hx.le hy.le
    · cases hopt : st.grid_plane_model with
      | none =>
        rw [aux_estimate_stale_none st mpp imgH imgW box mask depth classId barragemId
          eigh knn hg hopt]
      | some pl =>
        rw [aux_estimate_stale_some st mpp imgH imgW box mask depth classId barragemId
          eigh knn pl hg hopt]
        dsimp only
        exact aux_area_nonneg _ mpp _ hx.le hy.le
  · by_cases hg : 3 < (est_grid_points imgH imgW box mask depth classId barragemId).length
    · rw [aux_estimate_fresh st mpp imgH imgW box mask depth classId barragemId eigh knn hg]
      dsimp only
      exact aux_volume_nonneg _ mpp _ hx.le hy.le
    · cases hopt : st.grid_plane_model with
      | none =>
        rw [aux_estimate_stale_none st mpp imgH imgW box mask depth classId barragemId
          eigh knn hg hopt]
      | some pl =>
        rw [aux_estimate_stale_some st mpp imgH imgW box mask depth classId barragemId
          eigh knn pl hg hopt]
        dsimp only
        exact aux_volume_nonneg _ mpp _ hx.le hy.le
  · rintro ⟨hlen, hnone⟩
    rw [aux_estimate_stale_none st mpp imgH imgW box mask depth classId barragemId
      eigh knn (not_lt.2 hlen) hnone]
    exact ⟨rfl, rfl⟩

theorem aux_est_box_scA : est_box ⟨0, 0, 10, 5⟩ 5 10 = ⟨0, 0, 10, 5⟩ := by
  norm_num [est_box, enlargeBox, pyInt, Box.mk.injEq, Int.ceil_neg]

theorem aux_est_rows_scA : est_rows ⟨0, 0, 10, 5⟩ 5 10 = 5 := by
  unfold est_rows
  rw [aux_est_box_scA]
  decide

theorem aux_est_cols_scA : est_cols ⟨0, 0, 10, 5⟩ 5 10 = 10 := by
  unfold est_cols
  rw [aux_est_box_scA]
  decide

theorem aux_est_grid_scA :
    est_grid_points 5 10 ⟨0, 0, 10, 5⟩ (fun _ _ => 2) (fun _ _ => 0) 2 1 = [] := by
  unfold est_grid_points est_split
  rw [aux_est_rows_scA, aux_est_cols_scA]
  decide

theorem aux_est_class_len_scA :
    (est_class_points 5 10 ⟨0, 0, 10, 5⟩ (fun _ _ => 2) (fun _ _ => 0) 2 1).length = 50 := by
  unfold est_class_points est_split
  rw [aux_est_rows_scA, aux_est_cols_scA]
  decide

/-- Witness for C2: a 10x5 region whose 50 pixels all hold the target class
code and none the reference code, with no previously fitted plane, yields a
50-point target cloud, an empty reference cloud and the result `(0, 0)`. -/
theorem c2_area_volume_nonneg_and_degenerate_witness :
    (est_class_points 5 10 ⟨0, 0, 10, 5⟩ (fun _ _ => 2) (fun _ _ => 0) 2 1).length = 50 ∧
      (est_grid_points 5 10 ⟨0, 0, 10, 5⟩ (fun _ _ => 2) (fun _ _ => 0) 2 1).length ≤ 3 ∧
      ((estimate_blocking_area_volume ⟨none⟩ ⟨1 / 10, 1 / 10⟩ 5 10 ⟨0, 0, 10, 5⟩
          (fun _ _ => 2) (fun _ _ => 0) 2 1 (fun _ => ⟨0, 0, 1⟩) (fun _ _ => [])).area = 0 ∧
        (estimate_blocking_area_volume ⟨none⟩ ⟨1 / 10, 1 / 10⟩ 5 10 ⟨0, 0, 10, 5⟩
          (fun _ _ => 2) (fun _ _ => 0) 2 1 (fun _ => ⟨0, 0, 1⟩) (fun _ _ => [])).volume = 0) :=
  ⟨aux_est_class_len_scA, by rw [aux_est_grid_scA]; decide,
   (c2_area_volume_nonneg_and_degenerate ⟨none⟩ ⟨1 / 10, 1 / 10⟩ 5 10 ⟨0, 0, 10, 5⟩
      (fun _ _ => 2) (fun _ _ => 0) 2 1 (fun _ => ⟨0, 0, 1⟩) (fun _ _ => [])
      (by norm_num) (by norm_num)).2.2
    ⟨by rw [aux_est_grid_scA]; decide, rfl⟩⟩

/-- C3 (confirmed): when the grid cloud has more than 3 points a fresh plane
is fitted from it and stored; when it has 3 or fewer points the stored state
is unchanged and, if a previously fitted plane exists, that plane is the one
used to integrate the class cloud's area and volume; when additionally no
stored plane exists the call returns `(0, 0)`. -/
theorem c3_plane_fit_and_reuse (st : EstState) (mpp : MPerPixel) (imgH imgW : ℤ)
    (box : Box) (mask : ℕ → ℕ → ℕ) (depth : ℕ → ℕ → ℚ) (classId barragemId : ℕ)
    (eigh : Mat3 → Vec3) (knn : Vec3 → List Vec3 → List ℕ) :
    (3 < (est_grid_points imgH imgW box mask depth classId barragemId).length →
      (estimate_blocking_area_volume st mpp imgH imgW box mask depth classId
        barragemId eigh knn).state =
        ⟨some (estimate_original_grid_plane eigh
          (est_grid_points imgH imgW box mask depth classId barragemId))⟩) ∧
    ((est_grid_points imgH imgW box mask depth classId barragemId).length ≤ 3 →
      (estimate_blocking_area_volume st mpp imgH imgW box mask depth classId
        barragemId eigh knn).state = st ∧
      ∀ pl, st.grid_plane_model = some pl →
        (estimate_blocking_area_volume st mpp imgH imgW box mask depth classId
          barragemId eigh knn).area =
          calculate_detection_area
            (est_class_points imgH imgW box mask depth classId barragemId) mpp pl ∧
        (estimate_blocking_area_volume st mpp imgH imgW box mask depth classId
          barragemId eigh knn).volume =
          calculate_detection_volume
            (est_class_points imgH imgW box mask depth classId barragemId) mpp pl) ∧
    ((est_grid_points imgH imgW box mask depth classId barragemId).length ≤ 3 →
      st.grid_plane_model = none →
      (estimate_blocking_area_volume st mpp imgH imgW box mask depth classId
        barragemId eigh knn).area = 0 ∧
      (estimate_blocking_area_volume st mpp imgH imgW box mask depth classId
        barragemId eigh knn).volume = 0) := by
  refine ⟨?_, ?_, ?_⟩
  · intro hg
    rw [aux_estimate_fresh st mpp imgH imgW box mask depth classId barragemId eigh knn hg]
  · intro hlen
    have hg := not_lt.2 hlen
    constructor
    · cases hopt : st.grid_plane_model with
      | none =>
        rw [aux_estimate_stale_none st mpp imgH imgW box mask depth classId barragemId
          eigh knn hg hopt]
      | some pl =>
        rw [aux_estimate_stale_some st mpp imgH imgW box mask depth classId barragemId
          eigh knn pl hg hopt]
    · intro pl hs
      rw [aux_estimate_stale_some st mpp imgH imgW box mask depth classId barragemId
        eigh knn pl hg hs]
      exact ⟨rfl, rfl⟩
  · intro hlen hnone
    rw [aux_estimate_stale_none st mpp imgH imgW box mask depth classId barragemId
      eigh knn (not_lt.2 hlen) hnone]
    exact ⟨rfl, rfl⟩

/-- Witness for C3: with a previously stored plane `z = 0` and a degenerate
(empty) reference cloud, the state is kept and the metrics are integrated
against the stored plane. -/
theorem c3_plane_fit_and_reuse_witness :
    (estimate_blocking_area_volume ⟨some ⟨0, 0, 1, 0⟩⟩ ⟨1 / 10, 1 / 10⟩ 5 10
        ⟨0, 0, 10, 5⟩ (fun _ _ => 2) (fun _ _ => 0) 2 1 (fun _ => ⟨0, 0, 1⟩)
        (fun _ _ => [])).state = ⟨some ⟨0, 0, 1, 0⟩⟩ ∧
      (estimate_blocking_area_volume ⟨some ⟨0, 0, 1, 0⟩⟩ ⟨1 / 10, 1 / 10⟩ 5 10
        ⟨0, 0, 10, 5⟩ (fun _ _ => 2) (fun _ _ => 0) 2 1 (fun _ => ⟨0, 0, 1⟩)
        (fun _ _ => [])).area =
        calculate_detection_area
          (est_class_points 5 10 ⟨0, 0, 10, 5⟩ (fun _ _ => 2) (fun _ _ => 0) 2 1)
          ⟨1 / 10, 1 / 10⟩ ⟨0, 0, 1, 0⟩ := by
  have h := (c3_plane_fit_and_reuse ⟨some ⟨0, 0, 1, 0⟩⟩ ⟨1 / 10, 1 / 10⟩ 5 10
    ⟨0, 0, 10, 5⟩ (fun _ _ => 2) (fun _ _ => 0) 2 1 (fun _ => ⟨0, 0, 1⟩)
    (fun _ _ => [])).2.1 (by rw [aux_est_grid_scA]; decide)
  exact ⟨h.1, (h.2 ⟨0, 0, 1, 0⟩ rfl).1⟩

theorem aux_enumIdx_fst_ge : ∀ (l : List Box) (n : ℕ), ∀ x ∈ enumIdx n l, n ≤ x.1
  | [], n, x, hx => by simp [enumIdx] at hx
  | b :: t, n, x, hx => by
    rw [show enumIdx n (b :: t) = (n, b) :: enumIdx (n + 1) t from rfl] at hx
    rcases List.mem_cons.1 hx with h | h
    · subst h
      exact le_refl n
    · exact le_trans (Nat.le_succ n) (aux_enumIdx_fst_ge t (n + 1) x h)

theorem aux_enumIdx_snd_mem : ∀ (l : List Box) (n : ℕ), ∀ x ∈ enumIdx n l, x.2 ∈ l
  | [], n, x, hx => by simp [enumIdx] at hx
  | b :: t, n, x, hx => by
    rw [show enumIdx n (b :: t) = (n, b) :: enumIdx (n + 1) t from rfl] at hx
    rcases List.mem_cons.1 hx with h | h
    · subst h
      exact List.mem_cons_self _ _
    · exact List.mem_cons_of_mem _ (aux_enumIdx_snd_mem t (n + 1) x h)

theorem aux_enumIdx_map_snd : ∀ (l : List Box) (n : ℕ),
    (enumIdx n l).map (fun ib => ib.2) = l
  | [], _ => rfl
  | b :: t, n => by
    rw [show enumIdx n (b :: t) = (n, b) :: enumIdx (n + 1) t from rfl, List.map_cons,
      aux_enumIdx_map_snd t (n + 1)]

theorem aux_pairwiseB_to_pairwise : ∀ l : List Box, pairwiseNonCollidingB l = true →
    l.Pairwise (fun a b => collide a b = false)
  | [], _ => List.Pairwise.nil
  | b :: t, h => by
    rw [show pairwiseNonCollidingB (b :: t) =
      (t.all (fun c => !(collide b c)) && pairwiseNonCollidingB t) from rfl,
      Bool.and_eq_true] at h
    refine List.Pairwise.cons ?_ (aux_pairwiseB_to_pairwise t h.2)
    intro c hc
    have hall := List.all_eq_true.1 h.1 c hc
    simpa using hall

theorem aux_enumIdx_pairwise (R : Box → Box → Prop) :
    ∀ (l : List Box) (n : ℕ), l.Pairwise R →
      ∀ x ∈ enumIdx n l, ∀ y ∈ enumIdx n l, x.1 < y.1 → R x.2 y.2
  | [], n, _, x, hx, _, _, _ => by simp [enumIdx] at hx
  | b :: t, n, hp, x, hx, y, hy, hlt => by
    obtain ⟨hb, ht⟩ := List.pairwise_cons.1 hp
    rw [show enumIdx n (b :: t) = (n, b) :: enumIdx (n + 1) t from rfl] at hx hy
    rcases List.mem_cons.1 hx with hx1 | hx1
    · rcases List.mem_cons.1 hy with hy1 | hy1
      · subst hx1
        subst hy1
        exact absurd hlt (lt_irrefl _)
      · subst hx1
        exact hb y.2 (aux_enumIdx_snd_mem t (n + 1) y hy1)
    · rcases List.mem_cons.1 hy with hy1 | hy1
      · have hge := aux_enumIdx_fst_ge t (n + 1) x hx1
        subst hy1
        exact absurd hlt (by omega)
      · exact aux_enumIdx_pairwise R t (n + 1) ht x hx1 y hy1 hlt

theorem aux_filter_eq_nil {p : ℕ × Box → Bool} :
    ∀ l : List (ℕ × Box), (∀ x ∈ l, p x = false) → l.filter p = []
  | [], _ => rfl
  | x :: t, h => by
    have hx : p x = false := h x (List.mem_cons_self _ _)
    rw [List.filter_cons]
    simp only [hx, Bool.false_eq_true, if_false]
    exact aux_filter_eq_nil t (fun y hy => h y (List.mem_cons_of_mem _ hy))

theorem aux_binStep_fold (env : List (ℕ × Box)) :
    ∀ (suff : List (ℕ × Box)) (bins : List (List Box)),
      (∀ ib ∈ suff,
        env.filter (fun jb => decide (ib.1 < jb.1) && collide ib.2 jb.2) = []) →
      suff.foldl (binStep env) (bins, []) = (bins ++ suff.map (fun ib => [ib.2]), [])
  | [], bins, _ => by simp
  | ib :: rest, bins, h => by
    have hstep : binStep env (bins, ([] : List ℕ)) ib = (bins ++ [[ib.2]], []) := by
      unfold binStep
      rw [if_neg (List.not_mem_nil _)]
      simp only [h ib (List.mem_cons_self _ _), List.map_nil, List.append_nil]
    rw [List.foldl_cons, hstep,
      aux_binStep_fold env rest (bins ++ [[ib.2]])
        (fun x hx => h x (List.mem_cons_of_mem _ hx))]
    simp

theorem aux_filter_fixed (l : List Box) (h : pairwiseNonCollidingB l = true) :
    filter_colliding_boxes l = l := by
  have hp := aux_pairwiseB_to_pairwise l h
  have hpairs := aux_enumIdx_pairwise (fun a b => collide a b = false) l 0 hp
  have hnil : ∀ ib ∈ enumIdx 0 l,
      (enumIdx 0 l).filter (fun jb => decide (ib.1 < jb.1) && collide ib.2 jb.2) = [] := by
    intro ib hib
    refine aux_filter_eq_nil _ ?_
    intro jb hjb
    by_cases hlt : ib.1 < jb.1
    · rw [hpairs ib hib jb hjb hlt]
      simp
    · simp [hlt]
  simp only [filter_colliding_boxes]
  rw [aux_binStep_fold (enumIdx 0 l) (enumIdx 0 l) [] hnil]
  dsimp only
  simp only [List.nil_append, List.map_map]
  exact aux_enumIdx_map_snd l 0

/-- C5 counterexample: for the boxes `A=[0,0,10,10]`, `B=[5,0,20,10]`,
`C=[18,0,25,10]` (B overlaps both A and C, C does not overlap A), one
application keeps `[B, C]`, which still collide, and a second application
keeps only `[B]`; the filter is not idempotent. -/
theorem c5_idempotence_counterexample :
    filter_colliding_boxes (filter_colliding_boxes
        [⟨0, 0, 10, 10⟩, ⟨5, 0, 20, 10⟩, ⟨18, 0, 25, 10⟩]) ≠
      filter_colliding_boxes [⟨0, 0, 10, 10⟩, ⟨5, 0, 20, 10⟩, ⟨18, 0, 25, 10⟩] := by
  decide

/-- C5 (corrected): applying `filter_colliding_boxes` twice yields the same
result as applying it once whenever the first application's output is
pairwise non-colliding (in general it need not be, and a second application
can remove further boxes); in fact the filter leaves any pairwise
non-colliding list unchanged. -/
theorem c5_idempotent_on_noncolliding (l : List Box)
    (h : pairwiseNonCollidingB (filter_colliding_boxes l) = true) :
    filter_colliding_boxes (filter_colliding_boxes l) = filter_colliding_boxes l :=
  aux_filter_fixed (filter_colliding_boxes l) h

/-- Witness for C5: two disjoint boxes survive one pass untouched and a
second pass changes nothing. -/
theorem c5_idempotent_on_noncolliding_witness :
    filter_colliding_boxes (filter_colliding_boxes
        [⟨0, 0, 10, 10⟩, ⟨20, 0, 30, 10⟩]) =
      filter_colliding_boxes [⟨0, 0, 10, 10⟩, ⟨20, 0, 30, 10⟩] :=
  c5_idempotent_on_noncolliding [⟨0, 0, 10, 10⟩, ⟨20, 0, 30, 10⟩] (by decide)

theorem aux_hstack_fold : ∀ (ops : List ResizeOp) (H0 w0 : ℤ),
    (∀ op ∈ ops, op.dstH = H0) →
    ops.foldl (fun acc op => hstackDims acc (op.dstH, op.dstW)) (some (H0, w0)) =
      some (H0, w0 + (ops.map (fun op => op.dstW)).sum)
  | [], H0, w0, _ => by simp
  | op :: rest, H0, w0, h => by
    have hH : op.dstH = H0 := h op (List.mem_cons_self _ _)
    have hstep : hstackDims (some (H0, w0)) (op.dstH, op.dstW) =
        some (H0, w0 + op.dstW) := by
      unfold hstackDims
      simp [hH]
    rw [List.foldl_cons, hstep,
      aux_hstack_fold rest H0 (w0 + op.dstW)
        (fun x hx => h x (List.mem_cons_of_mem _ hx)),
      List.map_cons, List.sum_cons, add_assoc]

/-- C1 (corrected): for every rectifier state with a barrier box and a
non-empty sorted box sequence whose highest point lies inside the image, the
rectified composite image's height is `image_height - grid_highest_point`
and its width is the sum of the per-section target widths, where the grid
target width is `int(grid_width_m / x_res)` and the collumn target width is
`int(collumn_width_m / x_res)` - python `int` truncation, not `round` as the
claim words it. -/
theorem c1_rectified_dimensions (r : ImageRectification) (bb : Box) (imgH imgW : ℤ)
    (t0 : Box × BoxType) (ts : List (Box × BoxType))
    (hbb : r.barrier_box = some bb)
    (hsort : sort_enhance_detected_boxes bb r.collumn_boxes = t0 :: ts)
    (h0 : 0 ≤ minYOfTagged t0 ts) (hle : minYOfTagged t0 ts ≤ imgH) :
    (r.snip_rectify_image imgH imgW).map (fun res => (res.height, res.width)) =
      some (imgH - minYOfTagged t0 ts,
        sectionWidthSum (t0 :: ts) r.grid_width_px r.collumn_width_px) := by
  have hops : ∀ op ∈ snip_section_ops t0 ts imgH imgW r.grid_width_px r.collumn_width_px,
      op.dstH = imgH - minYOfTagged t0 ts := by
    intro op hop
    unfold snip_section_ops at hop
    rw [List.map_map] at hop
    obtain ⟨bt, hbt, rfl⟩ := List.mem_map.1 hop
    show sliceLen (minYOfTagged t0 ts) imgH imgH = imgH - minYOfTagged t0 ts
    unfold sliceLen
    rw [min_self, max_eq_left h0, max_eq_right (sub_nonneg.2 hle)]
  have hwidths : ((snip_section_ops t0 ts imgH imgW r.grid_width_px
      r.collumn_width_px).map (fun op => op.dstW)).sum =
      sectionWidthSum (t0 :: ts) r.grid_width_px r.collumn_width_px := by
    unfold snip_section_ops sectionWidthSum
    rw [List.map_map, List.map_map]
    rfl
  have hfold := aux_hstack_fold
    (snip_section_ops t0 ts imgH imgW r.grid_width_px r.collumn_width_px)
    (imgH - minYOfTagged t0 ts) 1 hops
  unfold ImageRectification.snip_rectify_image
  rw [hbb]
  simp only [Option.some_bind, hsort, hfold, hwidths, Option.map_some']
  rw [show (1 : ℤ) + sectionWidthSum (t0 :: ts) r.grid_width_px r.collumn_width_px - 1 =
    sectionWidthSum (t0 :: ts) r.grid_width_px r.collumn_width_px from by ring]

theorem aux_rectifierExample_eq :
    rectifierExample = ⟨10, 10, 3, 1 / 10, 100, 30,
      [⟨50, 20, 70, 100⟩, ⟨150, 20, 170, 100⟩], some ⟨0, 0, 200, 100⟩⟩ := by
  show ImageRectification.mk 10 10 3 (1 / 10) (pyInt (10 / (1 / 10)))
    (pyInt (3 / (1 / 10)))
    (filter_colliding_boxes [⟨50, 20, 70, 100⟩, ⟨150, 20, 170, 100⟩])
    (some (pickBarrierBox ⟨0, 0, 200, 100⟩ [])) = _
  simp only [ImageRectification.mk.injEq, true_and]
  refine ⟨by norm_num [pyInt], by norm_num [pyInt], by decide, by decide⟩

theorem aux_rectifierHalfPx_eq :
    rectifierHalfPx = ⟨3, 10, 3, 2, 1, 1, [⟨40, 10, 60, 100⟩], some ⟨0, 0, 100, 100⟩⟩ := by
  show ImageRectification.mk 3 10 3 2 (pyInt (3 / 2)) (pyInt (3 / 2))
    (filter_colliding_boxes [⟨40, 10, 60, 100⟩])
    (some (pickBarrierBox ⟨0, 0, 100, 100⟩ [])) = _
  simp only [ImageRectification.mk.injEq, true_and]
  refine ⟨by norm_num [pyInt], by norm_num [pyInt], by decide, by decide⟩

/-- C1 counterexample: with `grid_width = collumn_width = 3` m and
`x_res = 2` m/px, the code's target widths are `int(1.5) = 1` per section
(total 3 for two grid cells and one collumn... the composite is 3 px wide),
while the claim's `round` formula gives `round(1.5) = 2` per section
(total 6); the rectified width does not equal the round-based sum. -/
theorem c1_round_formula_counterexample :
    (rectifierHalfPx.snip_rectify_image 100 100).map (fun res => res.width) = some 3 ∧
      sectionWidthSum (sort_enhance_detected_boxes ⟨0, 0, 100, 100⟩
          rectifierHalfPx.collumn_boxes)
        (specRoundWidthPx rectifierHalfPx.grid_width_m rectifierHalfPx.meters_pixel)
        (specRoundWidthPx rectifierHalfPx.collumn_width_m rectifierHalfPx.meters_pixel) =
        6 ∧
      (3 : ℤ) ≠ 6 := by
  refine ⟨?_, ?_, by decide⟩
  · rw [aux_rectifierHalfPx_eq]
    decide
  · rw [aux_rectifierHalfPx_eq]
    have hsr : specRoundWidthPx 3 2 = 2 := by
      norm_num [specRoundWidthPx, round_eq]
    dsimp only
    rw [hsr]
    decide

/-- Witness for C1: the concrete 200x100 scenario (columns `[50,20,70,100]`
and `[150,20,170,100]`, structure box `[0,0,200,100]`, grid width 10 m,
collumn width 3 m, `x_res = 0.1`) rectifies to an 80 px high, 360 px wide
composite. -/
theorem c1_rectified_dimensions_witness :
    (rectifierExample.snip_rectify_image 100 200).map
        (fun res => (res.height, res.width)) = some (80, 360) := by
  have hcols : rectifierExample.collumn_boxes =
      [⟨50, 20, 70, 100⟩, ⟨150, 20, 170, 100⟩] := by
    rw [aux_rectifierExample_eq]
  have hfinal := c1_rectified_dimensions rectifierExample ⟨0, 0, 200, 100⟩ 100 200
    (⟨0, 20, 50, 100⟩, BoxType.grid)
    [(⟨50, 20, 70, 100⟩, BoxType.collumn), (⟨70, 20, 150, 100⟩, BoxType.grid),
     (⟨150, 20, 170, 100⟩, BoxType.collumn), (⟨170, 20, 200, 100⟩, BoxType.grid)]
    (by rw [aux_rectifierExample_eq]) (by rw [hcols]; decide) (by decide) (by decide)
  rw [hfinal, show rectifierExample.grid_width_px = 100 from by
      rw [aux_rectifierExample_eq],
    show rectifierExample.collumn_width_px = 30 from by rw [aux_rectifierExample_eq]]
  decide

/-- C4 (code_bug): in the Apex pipeline the class mask is rectified by the
very same `snip_rectify_image` as the RGB image, and every section - mask or
RGB alike - is resized with `Image.Resampling.LANCZOS`; no section is ever
resampled with nearest-neighbor, contrary to the claim (and to what the
downstream exact-equality tests on class codes require). -/
theorem c4_mask_sections_resampled_with_lanczos :
    (rectifierExample.snip_rectify_image 100 200).map
        (fun res => res.ops.map (fun op => op.rfilter)) =
      some [ResampleFilter.lanczos, ResampleFilter.lanczos, ResampleFilter.lanczos,
        ResampleFilter.lanczos, ResampleFilter.lanczos] ∧
      ∀ (secH secW : ℤ) (t : BoxType) (gpx cpx : ℤ),
        (rectify_image_section secH secW t gpx cpx).rfilter ≠ ResampleFilter.nearest := by
  constructor
  · rw [aux_rectifierExample_eq]
    decide
  · intro secH secW t gpx cpx
    cases t <;> simp [rectify_image_section]
